import Mathlib

/-!
Verification of the multi-item sale transaction engine of the inventory/sales
application (models.py and routes.py).

Shallow embedding conventions:
* SQL `Numeric` / Python `Decimal` money values are embedded as `ℚ`; every
  arithmetic operation performed by the code on these values (integer scaling,
  multiplication, division by 100, subtraction, summation) is exact in
  `Decimal` at the program's scale, so `ℚ` computes the same values.
* Python `int` quantities are embedded as `Int`.
* Database rows are records; a table is a `List` of records; `query.get(id)`
  is `List.find?` on the id; mutating a fetched row is `List.map` replacing
  the matching row.
* Invoice-number strings are embedded as `List Char`; SQL `LIKE 'p%'` is a
  prefix test and `ORDER BY invoice_number DESC ... first()` is the
  lexicographic (code-point) maximum.
* Route handlers are embedded from the point after authentication /
  CSRF checks (out of scope collaborators) with the form data already parsed
  into structured values, exactly as the handler body consumes them.
-/

namespace Revibe

/-- One row of the `inventory_item` table (models.py, class InventoryItem),
restricted to the fields the sale engine reads or writes. -/
structure InventoryItem where
  id : Nat
  item_type : String
  quantity : Int
  purchase_cost : ℚ
  selling_price : ℚ
  status : String
deriving DecidableEq

/-- One row of the `sale_item` table (models.py, class SaleItem). -/
structure SaleItem where
  inventory_id : Nat
  quantity_sold : Int
  unit_price : ℚ
  line_total : ℚ
  discount_percentage : ℚ
  discount_amount : ℚ
  final_line_total : ℚ
deriving DecidableEq

/-- models.py, SaleItem.calculate_line_totals:
`line_total = quantity_sold * unit_price`;
`discount_amount = (line_total * discount_percentage) / 100`;
`final_line_total = line_total - discount_amount`.
No rounding is performed by the method. -/
def SaleItem.calculate_line_totals (it : SaleItem) : SaleItem :=
  let lt : ℚ := it.quantity_sold * it.unit_price
  let da : ℚ := lt * it.discount_percentage / 100
  { it with line_total := lt, discount_amount := da, final_line_total := lt - da }

/-- One row of the `sale` table (models.py, class Sale), restricted to the
fields the sale engine reads or writes.  `invoice_number` is kept as a list
of characters.  Nullable columns are `Option`s; timestamps are abstract
`Nat` instants. -/
structure Sale where
  invoice_number : List Char
  customer_id : Nat
  total_sale_price : ℚ
  total_discount_amount : ℚ
  final_total_price : ℚ
  payment_method : String
  payment_receiver : String
  payment_status : String
  notes : String
  sold_by : Nat
  payment_confirmed_at : Option Nat
  payment_confirmed_by : Option Nat
  payment_proof_file : Option String
  voided_at : Option Nat
  voided_by : Option Nat
  void_reason : Option String
  sale_items : List SaleItem
  inventory_id : Option Nat
  quantity_sold : Option Int
  sale_price : Option ℚ
  discount_percentage : Option ℚ
  final_price : Option ℚ
deriving DecidableEq

/-- models.py, Sale.calculate_totals: when `sale_items` is non-empty
(Python truthiness of the list) the three totals are the sums of the
corresponding line fields; otherwise the legacy single-item fallback sets
`total_sale_price = sale_price or 0` and `final_total_price = final_price
or 0`, leaving `total_discount_amount` untouched.  (`x or 0` maps both
`None` and `0` to `0`, which on `ℚ` is exactly `Option.getD 0`.) -/
def Sale.calculate_totals (s : Sale) : Sale :=
  if s.sale_items ≠ [] then
    { s with
      total_sale_price := (s.sale_items.map (·.line_total)).sum
      total_discount_amount := (s.sale_items.map (·.discount_amount)).sum
      final_total_price := (s.sale_items.map (·.final_line_total)).sum }
  else
    { s with
      total_sale_price := s.sale_price.getD 0
      final_total_price := s.final_price.getD 0 }

/-! ## Invoice numbering (models.py, Sale.generate_invoice_number) -/

/-- Fuelled digit accumulator: peels decimal digits from the right, the
standard structural implementation of integer-to-decimal formatting. -/
def decReprAux : Nat → Nat → List Char → List Char
  | 0, _, acc => acc
  | fuel + 1, n, acc =>
    if n < 10 then Nat.digitChar n :: acc
    else decReprAux fuel (n / 10) (Nat.digitChar (n % 10) :: acc)

/-- Decimal representation of a natural number as digit characters,
most significant first — the digits produced by Python `str`/format on a
non-negative int.  The fuel `n + 1` always suffices. -/
def decRepr (n : Nat) : List Char :=
  decReprAux (n + 1) n []

/-- Python `f"{n:04d}"`: the decimal representation left-padded with `'0'`
to a minimum width of four characters. -/
def pad4 (n : Nat) : List Char :=
  List.replicate (4 - (decRepr n).length) '0' ++ decRepr n

/-- Python `int` on a string of decimal digits. -/
def charsToNat (s : List Char) : Nat :=
  s.foldl (fun a c => 10 * a + (c.toNat - 48)) 0

/-- Python `s.split('-')[-1]`: the segment after the last `'-'`
(the whole string when no `'-'` occurs). -/
def afterLastDash (s : List Char) : List Char :=
  (s.reverse.takeWhile (fun c => c ≠ '-')).reverse

/-- SQL `LIKE 'p%'`: prefix test on character lists. -/
def likePfx : List Char → List Char → Bool
  | [], _ => true
  | _ :: _, [] => false
  | a :: as, b :: bs => a = b && likePfx as bs

/-- Python `s.strip()`: drop leading and trailing whitespace.  Implemented
structurally on the character list (Python strips any whitespace; the
repository only ever passes ASCII form data, where `Char.isWhitespace`
agrees). -/
def pyStrip (s : String) : String :=
  String.mk
    (((s.data.dropWhile Char.isWhitespace).reverse.dropWhile
      Char.isWhitespace).reverse)

/-- Lexicographic (code-point) strict order on character lists: the order in
which SQL sorts the `invoice_number` column. -/
def lexLt : List Char → List Char → Bool
  | [], [] => false
  | [], _ :: _ => true
  | _ :: _, [] => false
  | a :: as, b :: bs => if a < b then true else if b < a then false else lexLt as bs

/-- Query `ORDER BY invoice_number DESC ... first()`: the lexicographically
greatest element of the list, `none` on the empty list. -/
def maxLex : List (List Char) → Option (List Char)
  | [] => none
  | x :: xs =>
    match maxLex xs with
    | none => some x
    | some m => if lexLt x m then some m else some x

/-- models.py, Sale.generate_invoice_number.  `dateStr` is
`today.strftime('%Y%m%d')` and `invoices` the stored `invoice_number`
column of the `sale` table.  The method filters the invoices matching
`LIKE "INV{date}%"`, takes the greatest in column (string) order, parses
the digits after the last dash, adds one (starting at 1 when no invoice
matches), and formats with `f"{prefix}-{seq:04d}"`. -/
def generate_invoice_number (dateStr : List Char) (invoices : List (List Char)) :
    List Char :=
  let pfx := "INV".data ++ dateStr
  match maxLex (invoices.filter (fun inv => likePfx pfx inv)) with
  | some last => pfx ++ '-' :: pad4 (charsToNat (afterLastDash last) + 1)
  | none => pfx ++ '-' :: pad4 1

/-- The invoice string the generator produces for a day prefix and a
sequence number. -/
def mkInvoice (dateStr : List Char) (n : Nat) : List Char :=
  "INV".data ++ dateStr ++ '-' :: pad4 n

/-- Maximum of a list of sequence numbers (`0` on the empty list). -/
def maxNat (l : List Nat) : Nat := l.foldr max 0

/-! ## Inventory table access -/

/-- Row lookup `InventoryItem.query.get(iid)`: the row with the given id. -/
def getItem (items : List InventoryItem) (iid : Nat) : Option InventoryItem :=
  items.find? (fun it => it.id == iid)

/-- Mutating the fetched row in place: replace the row(s) with the given id. -/
def updateItem (items : List InventoryItem) (iid : Nat)
    (f : InventoryItem → InventoryItem) : List InventoryItem :=
  items.map (fun it => if it.id == iid then f it else it)

/-! ## create_multi_item_sale (routes.py, lines 1405-1566) -/

/-- One parsed entry of the `sale_items-INDEX-FIELD` form data, after the
handler's `int`/`Decimal` conversions (entries that fail to parse are
skipped before this point). -/
structure LineRequest where
  inventory_id : Nat
  quantity : Int
  unit_price : ℚ
  discount_percentage : ℚ
deriving DecidableEq

/-- Outcome of `create_multi_item_sale`.  `no_valid_items` is the
`items_created == 0` rollback path (the session is rolled back, so the
carried inventory is the original one); `ok` is the committed path, carrying
the persisted sale, the final inventory table, and the ids flashed in the
`'Warning: Not enough quantity'` messages. -/
inductive CreateSaleResult where
  | no_valid_items (items : List InventoryItem)
  | ok (sale : Sale) (items : List InventoryItem) (warned : List Nat)
deriving DecidableEq

/-- The `SaleItem` row built for one parsed form entry (routes.py
1516-1523): the request fields are copied in and
`calculate_line_totals` fills the three computed columns. -/
def mkSaleItem (lr : LineRequest) : SaleItem :=
  SaleItem.calculate_line_totals
    { inventory_id := lr.inventory_id, quantity_sold := lr.quantity,
      unit_price := lr.unit_price, line_total := 0,
      discount_percentage := lr.discount_percentage, discount_amount := 0,
      final_line_total := 0 }

/-- The stock decrement applied to an inventory row by
create_multi_item_sale (routes.py 1532-1535). -/
def decByLine (lr : LineRequest) (i : InventoryItem) : InventoryItem :=
  let q := i.quantity - lr.quantity
  { i with quantity := q, status := if q = 0 then "sold" else i.status }

/-- Loop body of the sale-item loop (routes.py 1516-1537): build the
`SaleItem` via `calculate_line_totals` and add it unconditionally; then
fetch the inventory row and, only when `quantity >= requested`, decrement
it (marking it `sold` when the quantity reaches exactly 0); otherwise the
handler merely flashes a warning naming the item and keeps going. -/
def processSaleItem (st : List SaleItem × List InventoryItem × List Nat)
    (lr : LineRequest) : List SaleItem × List InventoryItem × List Nat :=
  match getItem st.2.1 lr.inventory_id with
  | some it =>
    if it.quantity ≥ lr.quantity then
      (st.1 ++ [mkSaleItem lr],
       updateItem st.2.1 lr.inventory_id (decByLine lr),
       st.2.2)
    else
      (st.1 ++ [mkSaleItem lr], st.2.1, st.2.2 ++ [lr.inventory_id])
  | none => (st.1 ++ [mkSaleItem lr], st.2.1, st.2.2)

/-- The `Sale` row as inserted by create_multi_item_sale before
`calculate_totals` runs (routes.py 1443-1462): null legacy fields, zero
totals, `pending` payment status. -/
def mkBaseSale (invoice : List Char) (customer_id : Nat)
    (payment_method payment_receiver notes : String) (sold_by : Nat)
    (sis : List SaleItem) : Sale :=
  { invoice_number := invoice, customer_id := customer_id,
    total_sale_price := 0, total_discount_amount := 0,
    final_total_price := 0,
    payment_method := payment_method, payment_receiver := payment_receiver,
    payment_status := "pending", notes := notes, sold_by := sold_by,
    payment_confirmed_at := none, payment_confirmed_by := none,
    payment_proof_file := none,
    voided_at := none, voided_by := none, void_reason := none,
    sale_items := sis,
    inventory_id := none, quantity_sold := none, sale_price := none,
    discount_percentage := none, final_price := none }

/-- routes.py, create_multi_item_sale, from the point where the customer is
resolved and the form rows are parsed.  The new sale gets an invoice number
from the current `sale` table; each parsed row is processed by
`processSaleItem`; if no row was processed the transaction is rolled back,
otherwise `calculate_totals` fills the aggregate totals and everything is
committed. -/
def create_multi_item_sale (dateStr : List Char) (invoices : List (List Char))
    (items : List InventoryItem) (customer_id : Nat)
    (lineRequests : List LineRequest)
    (payment_method payment_receiver notes : String) (sold_by : Nat) :
    CreateSaleResult :=
  let invoice := generate_invoice_number dateStr invoices
  let st := lineRequests.foldl processSaleItem ([], items, [])
  if st.1 = [] then .no_valid_items items
  else
    .ok (Sale.calculate_totals
      (mkBaseSale invoice customer_id payment_method payment_receiver notes
        sold_by st.1)) st.2.1 st.2.2

/-! ## add_sale, legacy single-item path (routes.py, lines 695-787) -/

/-- Outcome of the single-item `add_sale` handler: `insufficient` is the
`quantity_to_sell > available_qty` redirect (nothing committed),
`not_found` the missing-item redirect, `ok` the committed sale. -/
inductive AddSaleResult where
  | not_found (items : List InventoryItem)
  | insufficient (items : List InventoryItem)
  | ok (sale : Sale) (items : List InventoryItem)
deriving DecidableEq

/-- routes.py, add_sale, from the point where the customer is resolved.
Unlike the multi-item handler, this path rejects the whole request when the
requested quantity exceeds the available stock, before any mutation.
(The handler computes prices on Python floats before converting back to
`Decimal`; the float detour is embedded exactly on `ℚ`, which is where the
claims about this handler live — they concern only the stock check.) -/
def add_sale (dateStr : List Char) (invoices : List (List Char))
    (items : List InventoryItem) (customer_id inventory_id : Nat)
    (quantity_to_sell : Int) (discount_percentage : ℚ)
    (payment_method payment_receiver notes : String) (sold_by : Nat) :
    AddSaleResult :=
  match getItem items inventory_id with
  | none => .not_found items
  | some it =>
    let available_qty := it.quantity
    if quantity_to_sell > available_qty then .insufficient items
    else
      let unit_price := it.selling_price
      let subtotal := unit_price * quantity_to_sell
      let final_price := subtotal * (1 - discount_percentage / 100)
      let sale : Sale :=
        { invoice_number := generate_invoice_number dateStr invoices,
          customer_id := customer_id,
          total_sale_price := 0, total_discount_amount := 0,
          final_total_price := 0,
          payment_method := payment_method,
          payment_receiver := payment_receiver,
          payment_status := "pending", notes := notes, sold_by := sold_by,
          payment_confirmed_at := none, payment_confirmed_by := none,
          payment_proof_file := none,
          voided_at := none, voided_by := none, void_reason := none,
          sale_items := [],
          inventory_id := some inventory_id,
          quantity_sold := some quantity_to_sell,
          sale_price := some subtotal,
          discount_percentage := some discount_percentage,
          final_price := some final_price }
      let items' := updateItem items inventory_id (fun i =>
        let q := available_qty - quantity_to_sell
        { i with quantity := q, status := if q ≤ 0 then "sold" else i.status })
      .ok sale items'

/-! ## void_sale (routes.py, lines 1335-1403) -/

/-- Outcome of `void_sale`.  The two error constructors are redirects that
commit nothing, so they carry the unchanged sale and inventory. -/
inductive VoidSaleResult where
  | already_voided (sale : Sale) (items : List InventoryItem)
  | missing_reason (sale : Sale) (items : List InventoryItem)
  | ok (sale : Sale) (items : List InventoryItem)
deriving DecidableEq

/-- The stock restoration applied to an inventory row by void_sale: the
line's `quantity_sold` is added back and the status set to `'available'`
unconditionally. -/
def incBySaleItem (si : SaleItem) (i : InventoryItem) : InventoryItem :=
  { i with quantity := i.quantity + si.quantity_sold, status := "available" }

/-- Restoration step for one sale line (routes.py 1378-1382): via the
`sale_item.inventory_item` relationship, when the referenced row exists it
is updated by `incBySaleItem`. -/
def releaseSaleItem (items : List InventoryItem) (si : SaleItem) :
    List InventoryItem :=
  match getItem items si.inventory_id with
  | some _ => updateItem items si.inventory_id (incBySaleItem si)
  | none => items

/-- Legacy single-item restoration of void_sale (routes.py 1370-1375):
when `sale.inventory_id` is truthy (non-null and non-zero) and the row
exists, its quantity is incremented by the sale's legacy `quantity_sold`
and the status set to `'available'`.  (A truthy `inventory_id` paired with
a null `quantity_sold` would raise in Python and roll the transaction
back; no handler creates that combination, and it is embedded as the
rolled-back no-op.) -/
def legacyRestore (sale : Sale) (items : List InventoryItem) :
    List InventoryItem :=
  match sale.inventory_id, sale.quantity_sold with
  | some iid, some q =>
    if iid ≠ 0 then
      match getItem items iid with
      | some _ =>
        updateItem items iid (fun i =>
          { i with quantity := i.quantity + q, status := "available" })
      | none => items
    else items
  | _, _ => items

/-- routes.py, void_sale.  Rejects when the sale is already voided, then
when the stripped reason is empty; otherwise marks the sale voided
(recording instant, actor and reason), restores the legacy single-item row
when `sale.inventory_id` is truthy, restores every multi-item line via
`releaseSaleItem`, and commits.  (A legacy `inventory_id` with a null
`quantity_sold` would raise in Python and roll back; no handler in the
repository creates that combination, and it is embedded as the rolled-back
no-op on the inventory.) -/
def void_sale (sale : Sale) (items : List InventoryItem) (reason : String)
    (now voided_by : Nat) : VoidSaleResult :=
  if sale.payment_status = "voided" then .already_voided sale items
  else
    let r := pyStrip reason
    if r = "" then .missing_reason sale items
    else
      let sale' := { sale with
        payment_status := "voided", voided_at := some now,
        voided_by := some voided_by, void_reason := some r }
      let items1 := legacyRestore sale items
      let items2 := sale.sale_items.foldl releaseSaleItem items1
      .ok sale' items2

/-! ## confirm_payment (routes.py, lines 936-985) -/

/-- routes.py, confirm_payment, the POST path with a validated form (every
field of `PaymentConfirmationForm` is optional, so a posted form always
validates).  The handler unconditionally sets the status to `'received'`,
records the confirming actor and instant, stores the (possibly absent)
proof filename, and appends the formatted confirmation note to the sale's
notes when one was given — there is no check of the current payment status
anywhere in the handler.  `confirmation_note` stands for the already
formatted `"\n[Payment Confirmed by ...]: ..."` string. -/
def confirm_payment (sale : Sale) (now confirmed_by : Nat)
    (proof_filename : Option String) (confirmation_note : Option String) :
    Sale :=
  let s1 := { sale with
    payment_status := "received", payment_confirmed_at := some now,
    payment_confirmed_by := some confirmed_by,
    payment_proof_file := proof_filename }
  match confirmation_note with
  | some n =>
    if sale.notes ≠ "" then { s1 with notes := s1.notes ++ n }
    else { s1 with notes := pyStrip n }
  | none => s1

/-! ## Lemmas: row lookup vs row update -/

theorem getItem_updateItem_self (items : List InventoryItem) (iid : Nat)
    (f : InventoryItem → InventoryItem) (hf : ∀ it, (f it).id = it.id) :
    getItem (updateItem items iid f) iid = (getItem items iid).map f := by
  induction items with
  | nil => rfl
  | cons it rest ih =>
    by_cases h : it.id = iid
    · simp [updateItem, getItem, List.find?_cons, h, hf] at ih ⊢
    · simp only [updateItem, List.map_cons, getItem] at ih ⊢
      have hb : (it.id == iid) = false := by simp [h]
      simp only [hb, Bool.false_eq_true, if_false, List.find?_cons, hb]
      exact ih

theorem getItem_updateItem_other (items : List InventoryItem) (iid jid : Nat)
    (f : InventoryItem → InventoryItem) (hf : ∀ it, (f it).id = it.id)
    (h : jid ≠ iid) :
    getItem (updateItem items iid f) jid = getItem items jid := by
  induction items with
  | nil => rfl
  | cons it rest ih =>
    by_cases hit : it.id = iid
    · have h1 : ((f it).id == jid) = false := by
        simp [hf, hit]
        omega
      have h2 : (it.id == jid) = false := by
        simp [hit]
        omega
      simp only [updateItem, List.map_cons, getItem] at ih ⊢
      have hb : (it.id == iid) = true := by simp [hit]
      simp only [hb, if_true, List.find?_cons, h1, h2]
      exact ih
    · simp only [updateItem, List.map_cons, getItem] at ih ⊢
      have hb : (it.id == iid) = false := by simp [hit]
      simp only [hb, Bool.false_eq_true, if_false, List.find?_cons]
      cases hfind : (it.id == jid) with
      | false => simp only [hfind, Bool.false_eq_true, if_false]; exact ih
      | true => simp only [hfind, if_true]

theorem decByLine_id (lr : LineRequest) (i : InventoryItem) :
    (decByLine lr i).id = i.id := rfl

theorem incBySaleItem_id (si : SaleItem) (i : InventoryItem) :
    (incBySaleItem si i).id = i.id := rfl

theorem mkSaleItem_inventory_id (lr : LineRequest) :
    (mkSaleItem lr).inventory_id = lr.inventory_id := rfl

theorem mkSaleItem_quantity_sold (lr : LineRequest) :
    (mkSaleItem lr).quantity_sold = lr.quantity := rfl

/-- Characterization of the sale-item loop of create_multi_item_sale on
line requests with pairwise distinct item ids, all of which reference an
existing row with sufficient stock: every line yields its `SaleItem`, no
warning is flashed, each referenced row is decremented by its line, and
every other row is untouched. -/
theorem processSaleItem_foldl (lines : List LineRequest) :
    ∀ (sis : List SaleItem) (its : List InventoryItem) (ws : List Nat),
    (lines.map (·.inventory_id)).Nodup →
    (∀ lr ∈ lines, ∃ it, getItem its lr.inventory_id = some it ∧
        lr.quantity ≤ it.quantity) →
    ∃ itsF,
      lines.foldl processSaleItem (sis, its, ws) =
        (sis ++ lines.map mkSaleItem, itsF, ws) ∧
      (∀ jid, jid ∉ lines.map (·.inventory_id) →
        getItem itsF jid = getItem its jid) ∧
      (∀ lr ∈ lines, getItem itsF lr.inventory_id =
        (getItem its lr.inventory_id).map (decByLine lr)) := by
  induction lines with
  | nil =>
    intro sis its ws _ _
    exact ⟨its, by simp, fun jid _ => rfl, by simp⟩
  | cons lr rest ih =>
    intro sis its ws hnodup hval
    obtain ⟨it, hit, hq⟩ := hval lr (List.mem_cons_self lr rest)
    rw [List.map_cons, List.nodup_cons] at hnodup
    obtain ⟨hnotin, hnd⟩ := hnodup
    have hstep : processSaleItem (sis, its, ws) lr =
        (sis ++ [mkSaleItem lr],
         updateItem its lr.inventory_id (decByLine lr), ws) := by
      simp only [processSaleItem, hit, ge_iff_le, hq, if_true]
    have hval' : ∀ lr' ∈ rest,
        ∃ it', getItem (updateItem its lr.inventory_id (decByLine lr))
          lr'.inventory_id = some it' ∧ lr'.quantity ≤ it'.quantity := by
      intro lr' hlr'
      obtain ⟨it', hit', hq'⟩ := hval lr' (List.mem_cons_of_mem _ hlr')
      have hne : lr'.inventory_id ≠ lr.inventory_id := by
        intro he
        exact hnotin (he ▸ List.mem_map_of_mem (·.inventory_id) hlr')
      rw [getItem_updateItem_other _ _ _ _ (decByLine_id lr) hne]
      exact ⟨it', hit', hq'⟩
    obtain ⟨itsF, hfold, hframe, hper⟩ :=
      ih (sis ++ [mkSaleItem lr])
         (updateItem its lr.inventory_id (decByLine lr)) ws hnd hval'
    refine ⟨itsF, ?_, ?_, ?_⟩
    · rw [List.foldl_cons, hstep, hfold]
      simp
    · intro jid hjid
      rw [List.map_cons, List.mem_cons] at hjid
      push_neg at hjid
      rw [hframe jid hjid.2,
          getItem_updateItem_other _ _ _ _ (decByLine_id lr) hjid.1]
    · intro lr' hlr'
      rw [List.mem_cons] at hlr'
      rcases hlr' with rfl | hlr'
      · rw [hframe lr'.inventory_id hnotin,
            getItem_updateItem_self _ _ _ (decByLine_id lr')]
      · have hne : lr'.inventory_id ≠ lr.inventory_id := by
          intro he
          exact hnotin (he ▸ List.mem_map_of_mem (·.inventory_id) hlr')
        rw [hper lr' hlr',
            getItem_updateItem_other _ _ _ _ (decByLine_id lr) hne]

/-- Characterization of the stock-restoration loop of void_sale on sale
lines with pairwise distinct item ids: each referenced row that exists is
incremented by its line and marked available, and every other row is
untouched. -/
theorem releaseSaleItem_foldl (sis : List SaleItem) :
    ∀ (its : List InventoryItem),
    (sis.map (·.inventory_id)).Nodup →
    (∀ jid, jid ∉ sis.map (·.inventory_id) →
      getItem (sis.foldl releaseSaleItem its) jid = getItem its jid) ∧
    (∀ si ∈ sis, getItem (sis.foldl releaseSaleItem its) si.inventory_id =
      (getItem its si.inventory_id).map (incBySaleItem si)) := by
  induction sis with
  | nil => exact fun its _ => ⟨fun jid _ => rfl, by simp⟩
  | cons si rest ih =>
    intro its hnodup
    rw [List.map_cons, List.nodup_cons] at hnodup
    obtain ⟨hnotin, hnd⟩ := hnodup
    obtain ⟨ihframe, ihper⟩ := ih (releaseSaleItem its si) hnd
    rw [List.foldl_cons]
    cases hget : getItem its si.inventory_id with
    | none =>
      have hstep : releaseSaleItem its si = its := by
        simp only [releaseSaleItem, hget]
      refine ⟨?_, ?_⟩
      · intro jid hjid
        rw [List.map_cons, List.mem_cons] at hjid
        push_neg at hjid
        rw [ihframe jid hjid.2, hstep]
      · intro si' hsi'
        rw [List.mem_cons] at hsi'
        rcases hsi' with rfl | hsi'
        · rw [ihframe si'.inventory_id hnotin, hstep, hget]
          rfl
        · rw [ihper si' hsi', hstep]
    | some it =>
      have hstep : releaseSaleItem its si =
          updateItem its si.inventory_id (incBySaleItem si) := by
        simp only [releaseSaleItem, hget]
      refine ⟨?_, ?_⟩
      · intro jid hjid
        rw [List.map_cons, List.mem_cons] at hjid
        push_neg at hjid
        rw [ihframe jid hjid.2, hstep,
            getItem_updateItem_other _ _ _ _ (incBySaleItem_id si) hjid.1]
      · intro si' hsi'
        rw [List.mem_cons] at hsi'
        rcases hsi' with rfl | hsi'
        · rw [ihframe si'.inventory_id hnotin, hstep,
              getItem_updateItem_self _ _ _ (incBySaleItem_id si')]
        · have hne : si'.inventory_id ≠ si.inventory_id := by
            intro he
            exact hnotin (he ▸ List.mem_map_of_mem (·.inventory_id) hsi')
          rw [ihper si' hsi', hstep,
              getItem_updateItem_other _ _ _ _ (incBySaleItem_id si) hne]

/-! ## Lemmas: calculate_totals projections and the committed create -/

theorem calculate_totals_sale_items (s : Sale) :
    (Sale.calculate_totals s).sale_items = s.sale_items := by
  unfold Sale.calculate_totals
  split <;> rfl

theorem calculate_totals_payment_status (s : Sale) :
    (Sale.calculate_totals s).payment_status = s.payment_status := by
  unfold Sale.calculate_totals
  split <;> rfl

theorem calculate_totals_inventory_id (s : Sale) :
    (Sale.calculate_totals s).inventory_id = s.inventory_id := by
  unfold Sale.calculate_totals
  split <;> rfl

theorem calculate_totals_final_of_ne_nil (s : Sale) (h : s.sale_items ≠ []) :
    (Sale.calculate_totals s).final_total_price =
      (s.sale_items.map (·.final_line_total)).sum := by
  unfold Sale.calculate_totals
  rw [if_pos h]

/-- The committed path of create_multi_item_sale on a non-empty list of
line requests with pairwise distinct item ids, each referencing an
existing row with sufficient stock: the persisted sale, the decremented
rows and the untouched rows, with no warning flashed. -/
theorem create_multi_item_sale_ok (dateStr : List Char)
    (invoices : List (List Char)) (items : List InventoryItem)
    (customer_id : Nat) (lines : List LineRequest)
    (pm pr nt : String) (uid : Nat)
    (hne : lines ≠ [])
    (hnodup : (lines.map (·.inventory_id)).Nodup)
    (hval : ∀ lr ∈ lines, ∃ it, getItem items lr.inventory_id = some it ∧
      lr.quantity ≤ it.quantity) :
    ∃ itsF,
      create_multi_item_sale dateStr invoices items customer_id lines
          pm pr nt uid =
        .ok (Sale.calculate_totals
          (mkBaseSale (generate_invoice_number dateStr invoices) customer_id
            pm pr nt uid (lines.map mkSaleItem))) itsF [] ∧
      (∀ jid, jid ∉ lines.map (·.inventory_id) →
        getItem itsF jid = getItem items jid) ∧
      (∀ lr ∈ lines, getItem itsF lr.inventory_id =
        (getItem items lr.inventory_id).map (decByLine lr)) := by
  obtain ⟨itsF, hfold, hframe, hper⟩ :=
    processSaleItem_foldl lines [] items [] hnodup hval
  refine ⟨itsF, ?_, hframe, hper⟩
  simp only [create_multi_item_sale, hfold, List.nil_append]
  rw [if_neg (by simpa using hne)]

/-! ## Lemmas: void_sale only rewrites quantity and status -/

/-- A row transformation that can only touch `quantity` and `status`. -/
def PreservesMeta (f : InventoryItem → InventoryItem) : Prop :=
  ∀ it, (f it).id = it.id ∧ (f it).item_type = it.item_type ∧
    (f it).purchase_cost = it.purchase_cost ∧
    (f it).selling_price = it.selling_price

theorem preservesMeta_id : PreservesMeta id :=
  fun _ => ⟨rfl, rfl, rfl, rfl⟩

theorem preservesMeta_comp {f g : InventoryItem → InventoryItem}
    (hf : PreservesMeta f) (hg : PreservesMeta g) :
    PreservesMeta (f ∘ g) := by
  intro it
  obtain ⟨h1, h2, h3, h4⟩ := hg it
  obtain ⟨h1', h2', h3', h4'⟩ := hf (g it)
  exact ⟨h1'.trans h1, h2'.trans h2, h3'.trans h3, h4'.trans h4⟩

theorem preservesMeta_updateFun (iid : Nat)
    (h : InventoryItem → InventoryItem) (hh : PreservesMeta h) :
    PreservesMeta (fun it => if it.id == iid then h it else it) := by
  intro it
  dsimp only
  by_cases hc : (it.id == iid) = true
  · rw [if_pos hc]
    exact hh it
  · rw [if_neg hc]
    exact ⟨rfl, rfl, rfl, rfl⟩

theorem updateItem_eq_map (items : List InventoryItem) (iid : Nat)
    (f : InventoryItem → InventoryItem) :
    updateItem items iid f =
      items.map (fun it => if it.id == iid then f it else it) := rfl

/-- The restoration loop of void_sale is a pointwise rewrite of the
inventory table touching only `quantity` and `status`. -/
theorem releaseSaleItem_foldl_map (sis : List SaleItem) :
    ∀ its : List InventoryItem, ∃ f, PreservesMeta f ∧
      sis.foldl releaseSaleItem its = its.map f := by
  induction sis with
  | nil => exact fun its => ⟨id, preservesMeta_id, (List.map_id its).symm⟩
  | cons si rest ih =>
    intro its
    rw [List.foldl_cons]
    cases hget : getItem its si.inventory_id with
    | none =>
      have hstep : releaseSaleItem its si = its := by
        simp only [releaseSaleItem, hget]
      rw [hstep]
      exact ih its
    | some it =>
      have hstep : releaseSaleItem its si =
          its.map (fun i => if i.id == si.inventory_id
            then incBySaleItem si i else i) := by
        simp only [releaseSaleItem, hget, updateItem_eq_map]
      obtain ⟨f, hp, hmap⟩ := ih (releaseSaleItem its si)
      refine ⟨f ∘ (fun i => if i.id == si.inventory_id
        then incBySaleItem si i else i), ?_, ?_⟩
      · exact preservesMeta_comp hp
          (preservesMeta_updateFun _ _ (fun i => ⟨rfl, rfl, rfl, rfl⟩))
      · rw [hmap, hstep, List.map_map]

/-- The legacy restoration step of void_sale is likewise a pointwise
rewrite touching only `quantity` and `status`. -/
theorem legacyRestore_map (sale : Sale) (items : List InventoryItem) :
    ∃ g, PreservesMeta g ∧ legacyRestore sale items = items.map g := by
  unfold legacyRestore
  split
  · rename_i iid q heq1 heq2
    split
    · split
      · exact ⟨fun it => if it.id == iid then
            { it with quantity := it.quantity + q, status := "available" }
            else it,
          preservesMeta_updateFun _ _ (fun i => ⟨rfl, rfl, rfl, rfl⟩),
          updateItem_eq_map _ _ _⟩
      · exact ⟨id, preservesMeta_id, (List.map_id items).symm⟩
    · exact ⟨id, preservesMeta_id, (List.map_id items).symm⟩
  · exact ⟨id, preservesMeta_id, (List.map_id items).symm⟩

/-- The inventory rows a void of this sale reaches: the legacy
single-item reference (when present) and the rows referenced by the
sale's lines. -/
def referencedItemIds (sale : Sale) : List Nat :=
  sale.inventory_id.toList ++ sale.sale_items.map (·.inventory_id)

/-- A row whose id is referenced by none of the sale lines is untouched
by the restoration loop of void_sale (no distinctness needed). -/
theorem releaseSaleItem_foldl_frame (sis : List SaleItem) :
    ∀ (its : List InventoryItem) (jid : Nat),
    jid ∉ sis.map (·.inventory_id) →
    getItem (sis.foldl releaseSaleItem its) jid = getItem its jid := by
  induction sis with
  | nil => intro its jid _; rfl
  | cons si rest ih =>
    intro its jid hjid
    rw [List.map_cons, List.mem_cons] at hjid
    push_neg at hjid
    rw [List.foldl_cons, ih (releaseSaleItem its si) jid hjid.2]
    cases hget : getItem its si.inventory_id with
    | none => simp only [releaseSaleItem, hget]
    | some it =>
      simp only [releaseSaleItem, hget]
      exact getItem_updateItem_other _ _ _ _ (incBySaleItem_id si) hjid.1

/-- A row whose id is not the sale's legacy `inventory_id` is untouched
by the legacy restoration step of void_sale. -/
theorem legacyRestore_frame (sale : Sale) (items : List InventoryItem)
    (jid : Nat) (h : ∀ iid, sale.inventory_id = some iid → jid ≠ iid) :
    getItem (legacyRestore sale items) jid = getItem items jid := by
  unfold legacyRestore
  split
  · rename_i iid q heq1 heq2
    split
    · split
      · exact getItem_updateItem_other _ _ _ _ (fun i => rfl) (h iid heq1)
      · rfl
    · rfl
  · rfl

/-! ## Claims C7 and C10 -/

/-- Claim C7: for every sale whose payment status is already `voided`,
void_sale returns the already-voided rejection and neither the sale nor
any inventory row is changed (the result carries the input sale and
inventory unchanged). -/
theorem C7_void_already_voided (sale : Sale) (items : List InventoryItem)
    (reason : String) (now vuid : Nat)
    (h : sale.payment_status = "voided") :
    void_sale sale items reason now vuid = .already_voided sale items := by
  simp only [void_sale]
  rw [if_pos h]

/-- Witness for claim C7 at a concrete voided sale. -/
theorem C7_void_already_voided_witness :
    void_sale
      (mkBaseSale "INV20250101-0001".data 1 "cash" "ana" "" 2 []
        |>.calculate_totals
        |> (fun s => { s with payment_status := "voided" }))
      [] "duplicate" 9 4 =
      .already_voided
        (mkBaseSale "INV20250101-0001".data 1 "cash" "ana" "" 2 []
          |>.calculate_totals
          |> (fun s => { s with payment_status := "voided" })) [] :=
  C7_void_already_voided _ _ _ _ _ rfl

/-- Claim C10: a successful void_sale rewrites exactly the four void
bookkeeping fields of the sale — payment_status, voided_at, voided_by and
void_reason — leaving invoice number, customer, line items, line amounts
and the three aggregate totals as they were; on the inventory it rewrites
rows pointwise touching only `quantity` and `status`, and every row whose
id is referenced by no line of the sale (and is not the legacy
single-item reference) is left completely unchanged. -/
theorem C10_void_sale_frame (sale : Sale) (items : List InventoryItem)
    (reason : String) (now vuid : Nat)
    (h1 : sale.payment_status ≠ "voided") (h2 : pyStrip reason ≠ "") :
    ∃ f, PreservesMeta f ∧
      void_sale sale items reason now vuid =
        .ok { sale with
              payment_status := "voided",
              voided_at := some now,
              voided_by := some vuid,
              void_reason := some (pyStrip reason) }
          (items.map f) ∧
      (∀ jid, jid ∉ referencedItemIds sale →
        getItem (items.map f) jid = getItem items jid) := by
  obtain ⟨g, hpg, hg⟩ := legacyRestore_map sale items
  obtain ⟨f, hpf, hf⟩ := releaseSaleItem_foldl_map sale.sale_items
    (legacyRestore sale items)
  have hall : items.map (f ∘ g) =
      sale.sale_items.foldl releaseSaleItem (legacyRestore sale items) := by
    rw [hf, hg, List.map_map]
  refine ⟨f ∘ g, preservesMeta_comp hpf hpg, ?_, ?_⟩
  · simp only [void_sale]
    rw [if_neg h1, if_neg h2, hf, hg, List.map_map]
  · intro jid hjid
    have hj2 : jid ∉ sale.sale_items.map (·.inventory_id) := fun hm =>
      hjid (List.mem_append.mpr (Or.inr hm))
    have hj1 : ∀ iid, sale.inventory_id = some iid → jid ≠ iid := by
      intro iid hinv heq
      apply hjid
      unfold referencedItemIds
      rw [hinv, heq]
      exact List.mem_append.mpr (Or.inl (List.mem_singleton.mpr rfl))
    rw [hall, releaseSaleItem_foldl_frame sale.sale_items _ jid hj2]
    exact legacyRestore_frame sale items jid hj1

/-- Witness for claim C10 at a concrete pending one-line sale over two
inventory rows: only the four void fields and the referenced row's
quantity/status change, and the unreferenced row is untouched. -/
theorem C10_void_sale_frame_witness :
    ∃ f, PreservesMeta f ∧
      void_sale
        (mkBaseSale "INV20250101-0001".data 1 "cash" "ana" "" 2
          [{ inventory_id := 1, quantity_sold := 2, unit_price := 25,
             line_total := 50, discount_percentage := 0,
             discount_amount := 0, final_line_total := 50 }])
        [{ id := 1, item_type := "tv", quantity := 4, purchase_cost := 10,
           selling_price := 25, status := "available" },
         { id := 2, item_type := "cd", quantity := 7, purchase_cost := 1,
           selling_price := 3, status := "available" }] " customer return "
        9 4 =
        .ok { mkBaseSale "INV20250101-0001".data 1 "cash" "ana" "" 2
                [{ inventory_id := 1, quantity_sold := 2, unit_price := 25,
                   line_total := 50, discount_percentage := 0,
                   discount_amount := 0, final_line_total := 50 }] with
              payment_status := "voided",
              voided_at := some 9,
              voided_by := some 4,
              void_reason := some (pyStrip " customer return ") }
          ([{ id := 1, item_type := "tv", quantity := 4, purchase_cost := 10,
              selling_price := 25, status := "available" },
            { id := 2, item_type := "cd", quantity := 7, purchase_cost := 1,
              selling_price := 3, status := "available" }].map f) ∧
      (∀ jid, jid ∉ referencedItemIds
          (mkBaseSale "INV20250101-0001".data 1 "cash" "ana" "" 2
            [{ inventory_id := 1, quantity_sold := 2, unit_price := 25,
               line_total := 50, discount_percentage := 0,
               discount_amount := 0, final_line_total := 50 }]) →
        getItem
          ([{ id := 1, item_type := "tv", quantity := 4, purchase_cost := 10,
              selling_price := 25, status := "available" },
            { id := 2, item_type := "cd", quantity := 7, purchase_cost := 1,
              selling_price := 3, status := "available" }].map f) jid =
          getItem
            [{ id := 1, item_type := "tv", quantity := 4,
               purchase_cost := 10, selling_price := 25,
               status := "available" },
             { id := 2, item_type := "cd", quantity := 7, purchase_cost := 1,
               selling_price := 3, status := "available" }] jid) :=
  C10_void_sale_frame _ _ _ _ _ (by decide) (by decide)

/-! ## Claim C6: valid multi-item creation -/

/-- Claim C6: when every line of a create_multi_item_sale request is valid
— positive quantity, at most the referenced row's stock, rows pairwise
distinct — the operation commits, decrements each referenced row's stock
by exactly the requested quantity, and the persisted sale's
`final_total_price` is the sum of its lines' `final_line_total`. -/
theorem C6_create_sale_decrement_and_total (dateStr : List Char)
    (invoices : List (List Char)) (items : List InventoryItem)
    (customer_id : Nat) (lines : List LineRequest)
    (pm pr nt : String) (uid : Nat)
    (hne : lines ≠ [])
    (hnodup : (lines.map (·.inventory_id)).Nodup)
    (hval : ∀ lr ∈ lines, 0 < lr.quantity ∧
      ∃ it, getItem items lr.inventory_id = some it ∧
        lr.quantity ≤ it.quantity) :
    ∃ sale itsF,
      create_multi_item_sale dateStr invoices items customer_id lines
        pm pr nt uid = .ok sale itsF [] ∧
      (∀ lr ∈ lines, ∀ it, getItem items lr.inventory_id = some it →
        ∃ it', getItem itsF lr.inventory_id = some it' ∧
          it'.quantity = it.quantity - lr.quantity) ∧
      sale.final_total_price =
        (sale.sale_items.map (·.final_line_total)).sum := by
  obtain ⟨itsF, heq, hframe, hper⟩ :=
    create_multi_item_sale_ok dateStr invoices items customer_id lines
      pm pr nt uid hne hnodup (fun lr h => (hval lr h).2)
  refine ⟨_, itsF, heq, ?_, ?_⟩
  · intro lr hlr it hit
    have h := hper lr hlr
    rw [hit] at h
    exact ⟨decByLine lr it, h, rfl⟩
  · have hbne : (mkBaseSale (generate_invoice_number dateStr invoices)
        customer_id pm pr nt uid (lines.map mkSaleItem)).sale_items ≠ [] := by
      show lines.map mkSaleItem ≠ []
      simpa using hne
    rw [calculate_totals_final_of_ne_nil _ hbne, calculate_totals_sale_items]

/-- Witness for claim C6: a concrete two-line sale over two rows with
stock 5 and 3; both rows are decremented and the total reconciles. -/
theorem C6_create_sale_decrement_and_total_witness :
    ∃ sale itsF,
      create_multi_item_sale "20250101".data []
        [{ id := 1, item_type := "tv", quantity := 5, purchase_cost := 60,
           selling_price := 100, status := "available" },
         { id := 2, item_type := "cd", quantity := 3, purchase_cost := 2,
           selling_price := 8, status := "available" }] 7
        [{ inventory_id := 1, quantity := 2, unit_price := 100,
           discount_percentage := 0 },
         { inventory_id := 2, quantity := 1, unit_price := 8,
           discount_percentage := 10 }] "cash" "ana" "" 3 = .ok sale itsF [] ∧
      (∀ lr ∈ [({ inventory_id := 1, quantity := 2, unit_price := 100,
                  discount_percentage := 0 } : LineRequest),
               { inventory_id := 2, quantity := 1, unit_price := 8,
                 discount_percentage := 10 }], ∀ it,
        getItem
          [{ id := 1, item_type := "tv", quantity := 5, purchase_cost := 60,
             selling_price := 100, status := "available" },
           { id := 2, item_type := "cd", quantity := 3, purchase_cost := 2,
             selling_price := 8, status := "available" }] lr.inventory_id =
            some it →
        ∃ it', getItem itsF lr.inventory_id = some it' ∧
          it'.quantity = it.quantity - lr.quantity) ∧
      sale.final_total_price =
        (sale.sale_items.map (·.final_line_total)).sum :=
  C6_create_sale_decrement_and_total "20250101".data [] _ 7 _ "cash" "ana"
    "" 3 (by decide) (by decide)
    (by
      intro lr hlr
      simp only [List.mem_cons, List.not_mem_nil, or_false] at hlr
      rcases hlr with rfl | rfl
      · exact ⟨by decide, _, rfl, by decide⟩
      · exact ⟨by decide, _, rfl, by decide⟩)

/-! ## Claim C3: create-then-void round trip -/

/-- Claim C3, amended: for a sale whose lines were all valid at creation
(positive quantity within stock, rows pairwise distinct) and whose
referenced rows were all in status `available` before the sale, voiding
the created sale restores every referenced row exactly — same quantity
and same status — and leaves every other row untouched.  (The amendment
restricts the original claim to pre-sale status `available`, because
void_sale sets status to `available` unconditionally, and to lines within
stock, because an over-stock line is persisted without decrementing and
voiding would then over-credit the row.) -/
theorem C3_create_void_round_trip (dateStr : List Char)
    (invoices : List (List Char)) (items : List InventoryItem)
    (customer_id : Nat) (lines : List LineRequest)
    (pm pr nt : String) (uid : Nat) (reason : String) (now vuid : Nat)
    (hne : lines ≠ [])
    (hnodup : (lines.map (·.inventory_id)).Nodup)
    (hval : ∀ lr ∈ lines, 0 < lr.quantity ∧
      ∃ it, getItem items lr.inventory_id = some it ∧
        lr.quantity ≤ it.quantity ∧ it.status = "available")
    (hreason : pyStrip reason ≠ "") :
    ∃ sale its1 sale2 its2,
      create_multi_item_sale dateStr invoices items customer_id lines
        pm pr nt uid = .ok sale its1 [] ∧
      void_sale sale its1 reason now vuid = .ok sale2 its2 ∧
      (∀ lr ∈ lines,
        getItem its2 lr.inventory_id = getItem items lr.inventory_id) ∧
      (∀ jid, jid ∉ lines.map (·.inventory_id) →
        getItem its2 jid = getItem items jid) := by
  obtain ⟨its1, heq, hframe, hper⟩ :=
    create_multi_item_sale_ok dateStr invoices items customer_id lines
      pm pr nt uid hne hnodup
      (fun lr h => by
        obtain ⟨_, it, h1, h2, _⟩ := hval lr h
        exact ⟨it, h1, h2⟩)
  have hmape : (lines.map mkSaleItem).map (·.inventory_id) =
      lines.map (·.inventory_id) := by
    rw [List.map_map]
    rfl
  have hnodup' : ((lines.map mkSaleItem).map (·.inventory_id)).Nodup := by
    rw [hmape]
    exact hnodup
  obtain ⟨rframe, rper⟩ :=
    releaseSaleItem_foldl (lines.map mkSaleItem) its1 hnodup'
  have hps : (Sale.calculate_totals
      (mkBaseSale (generate_invoice_number dateStr invoices) customer_id
        pm pr nt uid (lines.map mkSaleItem))).payment_status = "pending" :=
    calculate_totals_payment_status _
  have hsi : (Sale.calculate_totals
      (mkBaseSale (generate_invoice_number dateStr invoices) customer_id
        pm pr nt uid (lines.map mkSaleItem))).sale_items =
      lines.map mkSaleItem :=
    calculate_totals_sale_items _
  have hvoid : void_sale
      (Sale.calculate_totals
        (mkBaseSale (generate_invoice_number dateStr invoices) customer_id
          pm pr nt uid (lines.map mkSaleItem))) its1 reason now vuid =
      .ok { Sale.calculate_totals
              (mkBaseSale (generate_invoice_number dateStr invoices)
                customer_id pm pr nt uid (lines.map mkSaleItem)) with
            payment_status := "voided",
            voided_at := some now,
            voided_by := some vuid,
            void_reason := some (pyStrip reason) }
        ((Sale.calculate_totals
          (mkBaseSale (generate_invoice_number dateStr invoices) customer_id
            pm pr nt uid
            (lines.map mkSaleItem))).sale_items.foldl releaseSaleItem
          its1) := by
    simp only [void_sale]
    rw [if_neg (by rw [hps]; decide), if_neg hreason]
    have hleg : legacyRestore
        (Sale.calculate_totals
          (mkBaseSale (generate_invoice_number dateStr invoices) customer_id
            pm pr nt uid (lines.map mkSaleItem))) its1 = its1 := by
      unfold legacyRestore
      rw [calculate_totals_inventory_id]
      rfl
    rw [hleg]
  rw [hsi] at hvoid
  refine ⟨_, its1, _, _, heq, hvoid, ?_, ?_⟩
  · intro lr hlr
    obtain ⟨_, it, hit, hq, hst⟩ := hval lr hlr
    have h2 := rper (mkSaleItem lr) (List.mem_map_of_mem mkSaleItem hlr)
    rw [mkSaleItem_inventory_id] at h2
    have h1 := hper lr hlr
    rw [hit] at h1
    rw [h2, h1]
    simp only [Option.map_some']
    have hres : incBySaleItem (mkSaleItem lr) (decByLine lr it) = it := by
      cases it with
      | mk iid ty qn pc sp st =>
        simp only [incBySaleItem, decByLine, mkSaleItem_quantity_sold]
        have hq2 : qn - lr.quantity + lr.quantity = qn := by omega
        have hst' : st = "available" := hst
        rw [hq2, hst']
    rw [hres, hit]
  · intro jid hjid
    have hr := rframe jid (by rw [hmape]; exact hjid)
    rw [hr]
    exact hframe jid hjid

/-- Witness for claim C3 at a concrete one-line sale on an available row
with stock 5, selling 2 and voiding with reason `"mistake"`. -/
theorem C3_create_void_round_trip_witness :
    ∃ sale its1 sale2 its2,
      create_multi_item_sale "20250101".data []
        [{ id := 1, item_type := "tv", quantity := 5, purchase_cost := 60,
           selling_price := 100, status := "available" }] 7
        [{ inventory_id := 1, quantity := 2, unit_price := 100,
           discount_percentage := 0 }] "cash" "ana" "" 3 = .ok sale its1 [] ∧
      void_sale sale its1 "mistake" 9 4 = .ok sale2 its2 ∧
      (∀ lr ∈ [({ inventory_id := 1, quantity := 2, unit_price := 100,
                  discount_percentage := 0 } : LineRequest)],
        getItem its2 lr.inventory_id =
          getItem
            [{ id := 1, item_type := "tv", quantity := 5, purchase_cost := 60,
               selling_price := 100, status := "available" }]
            lr.inventory_id) ∧
      (∀ jid, jid ∉ [({ inventory_id := 1, quantity := 2, unit_price := 100,
                        discount_percentage := 0 } : LineRequest)].map
          (·.inventory_id) →
        getItem its2 jid =
          getItem
            [{ id := 1, item_type := "tv", quantity := 5, purchase_cost := 60,
               selling_price := 100, status := "available" }] jid) :=
  C3_create_void_round_trip "20250101".data [] _ 7 _ "cash" "ana" "" 3
    "mistake" 9 4 (by decide) (by decide)
    (by
      intro lr hlr
      simp only [List.mem_cons, List.not_mem_nil, or_false] at hlr
      subst hlr
      exact ⟨by decide, _, rfl, by decide, rfl⟩)
    (by decide)

/-- The round trip of claim C3 run on a row whose pre-sale status is
`reserved`: the pair of the row's status before the sale and after the
void. -/
def c3RoundTripStatus : Option (String × String) :=
  match create_multi_item_sale "20250101".data []
      [{ id := 1, item_type := "ring", quantity := 5, purchase_cost := 3,
         selling_price := 10, status := "reserved" }] 7
      [{ inventory_id := 1, quantity := 2, unit_price := 10,
         discount_percentage := 0 }] "cash" "ana" "" 3 with
  | .ok sale its1 _ =>
    match void_sale sale its1 "mistake" 9 4 with
    | .ok _ its2 =>
      match getItem
          [{ id := 1, item_type := "ring", quantity := 5, purchase_cost := 3,
             selling_price := 10, status := "reserved" }] 1,
          getItem its2 1 with
      | some before, some after => some (before.status, after.status)
      | _, _ => none
    | _ => none
  | _ => none

/-- Counterexample to claim C3 as stated: a create-then-void round trip on
a row whose pre-sale status was `reserved` (quantity 5, selling 2 — a
fully valid line) ends with the row in status `available`, not its
pre-sale status. -/
theorem C3_counterexample :
    c3RoundTripStatus = some ("reserved", "available") ∧
    ("reserved" : String) ≠ "available" := by
  exact ⟨rfl, by decide⟩

/-! ## Claim C1: insufficient stock in a multi-line sale -/

/-- Inventory for the claim C1 run: item 1 has stock 5, item 2 stock 2. -/
def c1Items : List InventoryItem :=
  [{ id := 1, item_type := "tv", quantity := 5, purchase_cost := 100,
     selling_price := 200, status := "available" },
   { id := 2, item_type := "phone", quantity := 2, purchase_cost := 50,
     selling_price := 120, status := "available" }]

/-- Line requests for the claim C1 run: 1 unit of item 1 (in stock) and 10
units of item 2 (stock is only 2). -/
def c1Lines : List LineRequest :=
  [{ inventory_id := 1, quantity := 1, unit_price := 200,
     discount_percentage := 0 },
   { inventory_id := 2, quantity := 10, unit_price := 120,
     discount_percentage := 0 }]

/-- Observed outcome of the claim C1 run: number of persisted sale lines,
the quantity sold on each persisted line, final stock of both rows, and
the warned item ids. -/
def c1View : Option (Nat × List Int × List Int × List Nat) :=
  match create_multi_item_sale "20250101".data [] c1Items 7 c1Lines
      "cash" "ana" "" 3 with
  | .ok sale its warned =>
    some (sale.sale_items.length, sale.sale_items.map (fun si => si.quantity_sold),
      its.map (fun i => i.quantity), warned)
  | .no_valid_items _ => none

/-- Claim C1 evaluated on the failing input: a two-line request whose
second line asks for 10 units of a row holding 2 commits anyway — the sale
is persisted with BOTH lines (including the unfulfillable 10-unit line),
the first row's stock is decremented to 4, the second row is left at 2,
and the only trace is a flashed warning naming item 2; no error is
returned and nothing is rolled back.  The sibling single-item handler
`add_sale`, by contrast, rejects the same over-stock request and changes
nothing — the abort-on-insufficient-stock behaviour the claim
describes. -/
theorem C1_insufficient_line_not_aborted :
    c1View = some (2, [1, 10], [4, 2], [2]) ∧
    add_sale "20250101".data [] c1Items 7 2 10 0 "cash" "ana" "" 3 =
      .insufficient c1Items := by
  exact ⟨rfl, rfl⟩

/-! ## Claim C8: discount percentage outside the contracted range -/

/-- The inventory row of the claim C8 run. -/
def c8Item : InventoryItem :=
  { id := 1, item_type := "tv", quantity := 5, purchase_cost := 4,
    selling_price := 10, status := "available" }

/-- The line request of the claim C8 run: `discount_percentage = 150`,
outside the `[0, 100]` range. -/
def c8Line : LineRequest :=
  { inventory_id := 1, quantity := 1, unit_price := 10,
    discount_percentage := 150 }

/-- Claim C8 evaluated on the failing input: a line with
`discount_percentage = 150` — outside the `[0, 100]` range that
`SaleItemForm` declares via `NumberRange(min=0, max=100)` — is accepted by
create_multi_item_sale (which never runs the form validators), committing
the sale with the 150% discount priced in: discount amount 15 on a line
total of 10, a negative final line total of -5, and the stock decremented
to 4; no rejection of any kind occurs. -/
theorem C8_out_of_range_discount_accepted :
    ∃ sale itsF,
      create_multi_item_sale "20250101".data [] [c8Item] 7 [c8Line]
        "cash" "ana" "" 3 = .ok sale itsF [] ∧
      sale.sale_items = [mkSaleItem c8Line] ∧
      (mkSaleItem c8Line).discount_percentage = 150 ∧
      (mkSaleItem c8Line).discount_amount = 15 ∧
      (mkSaleItem c8Line).final_line_total = -5 ∧
      getItem itsF 1 = some { c8Item with quantity := 4 } := by
  obtain ⟨itsF, heq, hframe, hper⟩ :=
    create_multi_item_sale_ok "20250101".data [] [c8Item] 7 [c8Line]
      "cash" "ana" "" 3 (by decide) (by decide)
      (by
        intro lr hlr
        simp only [List.mem_cons, List.not_mem_nil, or_false] at hlr
        subst hlr
        exact ⟨c8Item, rfl, by decide⟩)
  refine ⟨_, itsF, heq, calculate_totals_sale_items _, rfl, ?_, ?_, ?_⟩
  · show ((1 : Int) : ℚ) * 10 * 150 / 100 = 15
    norm_num
  · show ((1 : Int) : ℚ) * 10 - ((1 : Int) : ℚ) * 10 * 150 / 100 = -5
    norm_num
  · have h := hper c8Line (by decide)
    rw [show getItem [c8Item] c8Line.inventory_id = some c8Item from rfl]
      at h
    exact h

/-! ## Claim C2: confirm_payment and the payment-status state machine -/

/-- Claim C2, amended: confirm_payment checks no state at all — for every
sale, whatever its current payment status (`pending`, `received` or
`voided`), the handler sets the status to `received` and records the
confirming actor and instant.  No `pending`-only guard exists and nothing
like an invalid-transition rejection is ever returned. -/
theorem C2_confirm_payment_unconditional (sale : Sale) (now uid : Nat)
    (proof_filename confirmation_note : Option String) :
    (confirm_payment sale now uid proof_filename
      confirmation_note).payment_status = "received" ∧
    (confirm_payment sale now uid proof_filename
      confirmation_note).payment_confirmed_at = some now ∧
    (confirm_payment sale now uid proof_filename
      confirmation_note).payment_confirmed_by = some uid := by
  cases confirmation_note with
  | none => exact ⟨rfl, rfl, rfl⟩
  | some n =>
    simp only [confirm_payment]
    by_cases h : sale.notes ≠ ""
    · rw [if_pos h]
      exact ⟨rfl, rfl, rfl⟩
    · rw [if_neg h]
      exact ⟨rfl, rfl, rfl⟩

/-- A concrete sale already voided. -/
def c2VoidedSale : Sale :=
  { mkBaseSale "INV20250101-0001".data 1 "cash" "ana" "" 2 [] with
    payment_status := "voided",
    voided_at := some 3,
    voided_by := some 1,
    void_reason := some "duplicate" }

/-- Counterexample to claim C2 as stated: confirm_payment on a voided sale
does not return an invalid-transition rejection leaving the sale
unchanged — it moves the voided sale to `received` and mutates it. -/
theorem C2_counterexample :
    c2VoidedSale.payment_status = "voided" ∧
    (confirm_payment c2VoidedSale 5 7 none none).payment_status =
      "received" ∧
    confirm_payment c2VoidedSale 5 7 none none ≠ c2VoidedSale := by
  exact ⟨rfl, rfl, by decide⟩

/-! ## Claim C4: per-line pricing -/

/-- The line of the claim C4 example: quantity 3, unit price 9.99,
discount 25%. -/
def c4Line : SaleItem :=
  SaleItem.calculate_line_totals
    { inventory_id := 1, quantity_sold := 3, unit_price := 999 / 100,
      line_total := 0, discount_percentage := 25, discount_amount := 0,
      final_line_total := 0 }

/-- Claim C4, amended: calculate_line_totals computes
`line_total = quantity * unit_price`,
`discount_amount = line_total * discount_pct / 100` EXACTLY — the method
performs no rounding to 2 decimal places — and
`final_line_total = line_total - discount_amount`; on (3, 9.99, 25) this
yields 29.97, 7.4925 and 22.4775 rather than the rounded 7.49 and 22.48. -/
theorem C4_line_totals_exact (si : SaleItem) :
    ((si.calculate_line_totals).line_total =
        si.quantity_sold * si.unit_price ∧
      (si.calculate_line_totals).discount_amount =
        si.quantity_sold * si.unit_price * si.discount_percentage / 100 ∧
      (si.calculate_line_totals).final_line_total =
        si.quantity_sold * si.unit_price -
          si.quantity_sold * si.unit_price * si.discount_percentage / 100) ∧
    c4Line.line_total = 2997 / 100 ∧
    c4Line.discount_amount = 74925 / 10000 ∧
    c4Line.final_line_total = 224775 / 10000 := by
  refine ⟨⟨rfl, rfl, rfl⟩, ?_, ?_, ?_⟩
  · show ((3 : Int) : ℚ) * (999 / 100) = 2997 / 100
    norm_num
  · show ((3 : Int) : ℚ) * (999 / 100) * 25 / 100 = 74925 / 10000
    norm_num
  · show ((3 : Int) : ℚ) * (999 / 100) -
      ((3 : Int) : ℚ) * (999 / 100) * 25 / 100 = 224775 / 10000
    norm_num

/-- Counterexample to claim C4 as stated: at (3, 9.99, 25) the computed
discount amount is 7.4925, not round(7.4925, 2) = 7.49, and the final
line total is 22.4775, not 22.48. -/
theorem C4_counterexample :
    c4Line.discount_amount ≠ 749 / 100 ∧
    c4Line.final_line_total ≠ 2248 / 100 := by
  constructor
  · show ((3 : Int) : ℚ) * (999 / 100) * 25 / 100 ≠ 749 / 100
    norm_num
  · show ((3 : Int) : ℚ) * (999 / 100) -
      ((3 : Int) : ℚ) * (999 / 100) * 25 / 100 ≠ 2248 / 100
    norm_num

/-! ## Claim C9: totals of an empty line list -/

/-- Claim C9, amended: on an empty line list calculate_totals does not
zero the three aggregates — it falls back to the legacy single-item
columns, setting `total_sale_price = sale_price or 0` and
`final_total_price = final_price or 0`, and leaves
`total_discount_amount` untouched; the three aggregates are all zero
exactly when the legacy prices are absent (or zero) and the prior
discount total was zero. -/
theorem C9_empty_lines_legacy_fallback (s : Sale) (h : s.sale_items = []) :
    (s.calculate_totals).total_sale_price = s.sale_price.getD 0 ∧
    (s.calculate_totals).total_discount_amount = s.total_discount_amount ∧
    (s.calculate_totals).final_total_price = s.final_price.getD 0 := by
  unfold Sale.calculate_totals
  rw [if_neg (by simp [h])]
  exact ⟨rfl, rfl, rfl⟩

/-- Witness for claim C9 on a fresh multi-item sale (no legacy columns,
zero prior totals): there the fallback does produce three zeros. -/
theorem C9_empty_lines_legacy_fallback_witness :
    ((mkBaseSale "INV20250101-0001".data 1 "cash" "ana" "" 2
        []).calculate_totals).total_sale_price =
      (mkBaseSale "INV20250101-0001".data 1 "cash" "ana" "" 2
        []).sale_price.getD 0 ∧
    ((mkBaseSale "INV20250101-0001".data 1 "cash" "ana" "" 2
        []).calculate_totals).total_discount_amount =
      (mkBaseSale "INV20250101-0001".data 1 "cash" "ana" "" 2
        []).total_discount_amount ∧
    ((mkBaseSale "INV20250101-0001".data 1 "cash" "ana" "" 2
        []).calculate_totals).final_total_price =
      (mkBaseSale "INV20250101-0001".data 1 "cash" "ana" "" 2
        []).final_price.getD 0 :=
  C9_empty_lines_legacy_fallback
    (mkBaseSale "INV20250101-0001".data 1 "cash" "ana" "" 2 []) rfl

/-- A legacy single-item sale: no sale-item rows, legacy price columns
populated. -/
def c9LegacySale : Sale :=
  { mkBaseSale "INV20250101-0001".data 1 "cash" "ana" "" 2 [] with
    sale_price := some 50,
    total_discount_amount := 3 }

/-- Counterexample to claim C9 as stated: on an empty line list over a
sale whose legacy `sale_price` is 50 and whose prior discount total is 3,
calculate_totals returns 50 and 3 — not zero for all three aggregates. -/
theorem C9_counterexample :
    (c9LegacySale.calculate_totals).total_sale_price = 50 ∧
    (c9LegacySale.calculate_totals).total_discount_amount = 3 ∧
    (50 : ℚ) ≠ 0 := by
  exact ⟨by decide, by decide, by decide⟩

/-! ## Lemmas: four-digit decimal formatting -/

/-- Closed form of the zero-padded four-digit string for `n < 10000`. -/
def dig4 (n : Nat) : List Char :=
  [Nat.digitChar (n / 1000), Nat.digitChar (n / 100 % 10),
   Nat.digitChar (n / 10 % 10), Nat.digitChar (n % 10)]

theorem decReprAux_one (fuel n : Nat) (acc : List Char) (h : n < 10) :
    decReprAux (fuel + 1) n acc = Nat.digitChar n :: acc := by
  simp only [decReprAux]
  rw [if_pos h]

theorem decReprAux_two (fuel n : Nat) (acc : List Char)
    (h1 : 10 ≤ n) (h2 : n < 100) :
    decReprAux (fuel + 2) n acc =
      Nat.digitChar (n / 10) :: Nat.digitChar (n % 10) :: acc := by
  show decReprAux ((fuel + 1) + 1) n acc = _
  simp only [decReprAux]
  rw [if_neg (by omega)]
  exact decReprAux_one fuel (n / 10) _ (by omega)

theorem decReprAux_three (fuel n : Nat) (acc : List Char)
    (h1 : 100 ≤ n) (h2 : n < 1000) :
    decReprAux (fuel + 3) n acc =
      Nat.digitChar (n / 100) :: Nat.digitChar (n / 10 % 10) ::
        Nat.digitChar (n % 10) :: acc := by
  show decReprAux ((fuel + 2) + 1) n acc = _
  simp only [decReprAux]
  rw [if_neg (show ¬ n < 10 by omega),
      if_neg (show ¬ n / 10 < 10 by omega),
      if_pos (show n / 10 / 10 < 10 by omega),
      show n / 10 / 10 = n / 100 by omega]

theorem decReprAux_four (fuel n : Nat) (acc : List Char)
    (h1 : 1000 ≤ n) (h2 : n < 10000) :
    decReprAux (fuel + 4) n acc =
      Nat.digitChar (n / 1000) :: Nat.digitChar (n / 100 % 10) ::
        Nat.digitChar (n / 10 % 10) :: Nat.digitChar (n % 10) :: acc := by
  show decReprAux ((fuel + 3) + 1) n acc = _
  simp only [decReprAux]
  rw [if_neg (show ¬ n < 10 by omega),
      if_neg (show ¬ n / 10 < 10 by omega),
      if_neg (show ¬ n / 10 / 10 < 10 by omega),
      if_pos (show n / 10 / 10 / 10 < 10 by omega),
      show n / 10 / 10 / 10 = n / 1000 by omega,
      show n / 10 / 10 = n / 100 by omega]

theorem pad4_eq_dig4 (n : Nat) (h : n < 10000) : pad4 n = dig4 n := by
  unfold pad4 decRepr
  by_cases h1 : n < 10
  · rw [decReprAux_one n n [] h1]
    have e1 : n / 1000 = 0 := by omega
    have e2 : n / 100 % 10 = 0 := by omega
    have e3 : n / 10 % 10 = 0 := by omega
    have e4 : n % 10 = n := by omega
    simp only [dig4, e1, e2, e3, e4, List.length_cons, List.length_nil]
    rfl
  · by_cases h2 : n < 100
    · obtain ⟨f, hf⟩ : ∃ f, n + 1 = f + 2 := ⟨n - 1, by omega⟩
      rw [hf, decReprAux_two f n [] (by omega) h2]
      have e1 : n / 1000 = 0 := by omega
      have e2 : n / 100 % 10 = 0 := by omega
      have e3 : n / 10 % 10 = n / 10 := by omega
      simp only [dig4, e1, e2, e3, List.length_cons, List.length_nil]
      rfl
    · by_cases h3 : n < 1000
      · obtain ⟨f, hf⟩ : ∃ f, n + 1 = f + 3 := ⟨n - 2, by omega⟩
        rw [hf, decReprAux_three f n [] (by omega) h3]
        have e1 : n / 1000 = 0 := by omega
        have e2 : n / 100 % 10 = n / 100 := by omega
        simp only [dig4, e1, e2, List.length_cons, List.length_nil]
        rfl
      · obtain ⟨f, hf⟩ : ∃ f, n + 1 = f + 4 := ⟨n - 3, by omega⟩
        rw [hf, decReprAux_four f n [] (by omega) h]
        simp only [dig4, List.length_cons, List.length_nil]
        rfl

theorem dig4_length (n : Nat) : (dig4 n).length = 4 := rfl

theorem digitChar_toNat_eq : ∀ d, d < 10 → (Nat.digitChar d).toNat = 48 + d := by
  decide

theorem digitChar_lt_iff : ∀ d, d < 10 → ∀ e, e < 10 →
    ((Nat.digitChar d < Nat.digitChar e) ↔ d < e) := by
  decide

theorem digitChar_ne_dash : ∀ d, d < 10 → Nat.digitChar d ≠ '-' := by
  decide

/-- Parsing the four-digit string with Python `int` recovers the number. -/
theorem charsToNat_dig4 (n : Nat) (h : n < 10000) :
    charsToNat (dig4 n) = n := by
  have h1 : n / 1000 < 10 := by omega
  have h2 : n / 100 % 10 < 10 := by omega
  have h3 : n / 10 % 10 < 10 := by omega
  have h4 : n % 10 < 10 := by omega
  simp only [charsToNat, dig4, List.foldl]
  rw [digitChar_toNat_eq _ h1, digitChar_toNat_eq _ h2,
      digitChar_toNat_eq _ h3, digitChar_toNat_eq _ h4]
  omega

/-! ## Lemmas: the lexicographic column order on invoice strings -/

theorem lexLt_irrefl (l : List Char) : lexLt l l = false := by
  induction l with
  | nil => rfl
  | cons a as ih =>
    simp only [lexLt]
    rw [if_neg (lt_irrefl a), if_neg (lt_irrefl a)]
    exact ih

theorem lexLt_asymm : ∀ l m : List Char, lexLt l m = true → lexLt m l = false := by
  intro l
  induction l with
  | nil =>
    intro m h
    cases m with
    | nil => exact absurd h (by decide)
    | cons b bs => rfl
  | cons a as ih =>
    intro m h
    cases m with
    | nil => simp [lexLt] at h
    | cons b bs =>
      simp only [lexLt] at h ⊢
      by_cases hab : a < b
      · rw [if_neg (lt_asymm hab), if_pos hab]
      · rw [if_neg hab] at h
        by_cases hba : b < a
        · rw [if_pos hba] at h
          exact absurd h (by decide)
        · rw [if_neg hba] at h
          rw [if_neg hba, if_neg hab]
          exact ih bs h

theorem lexLt_append_left (p : List Char) :
    ∀ u v, lexLt (p ++ u) (p ++ v) = lexLt u v := by
  induction p with
  | nil => intro u v; rfl
  | cons a as ih =>
    intro u v
    simp only [List.cons_append, lexLt]
    rw [if_neg (lt_irrefl a), if_neg (lt_irrefl a)]
    exact ih u v

theorem lexLt_dig4_of_lt (a b : Nat) (hab : a < b) (hb : b < 10000) :
    lexLt (dig4 a) (dig4 b) = true := by
  have c1 := digitChar_lt_iff (a / 1000) (by omega) (b / 1000) (by omega)
  have c2 := digitChar_lt_iff (a / 100 % 10) (by omega) (b / 100 % 10) (by omega)
  have c3 := digitChar_lt_iff (a / 10 % 10) (by omega) (b / 10 % 10) (by omega)
  have c4 := digitChar_lt_iff (a % 10) (by omega) (b % 10) (by omega)
  simp only [dig4, lexLt]
  by_cases h1 : a / 1000 < b / 1000
  · rw [if_pos (c1.2 h1)]
  · have e1 : a / 1000 = b / 1000 := by omega
    rw [if_neg (by rw [e1]; exact lt_irrefl _),
        if_neg (by rw [e1]; exact lt_irrefl _)]
    by_cases h2 : a / 100 % 10 < b / 100 % 10
    · rw [if_pos (c2.2 h2)]
    · have e2 : a / 100 % 10 = b / 100 % 10 := by omega
      rw [if_neg (by rw [e2]; exact lt_irrefl _),
          if_neg (by rw [e2]; exact lt_irrefl _)]
      by_cases h3 : a / 10 % 10 < b / 10 % 10
      · rw [if_pos (c3.2 h3)]
      · have e3 : a / 10 % 10 = b / 10 % 10 := by omega
        rw [if_neg (by rw [e3]; exact lt_irrefl _),
            if_neg (by rw [e3]; exact lt_irrefl _)]
        have h4 : a % 10 < b % 10 := by omega
        rw [if_pos (c4.2 h4)]

theorem lexLt_dig4_iff (a b : Nat) (ha : a < 10000) (hb : b < 10000) :
    lexLt (dig4 a) (dig4 b) = true ↔ a < b := by
  constructor
  · intro h
    rcases lt_trichotomy a b with h' | rfl | h'
    · exact h'
    · rw [lexLt_irrefl] at h
      exact absurd h (by decide)
    · rw [lexLt_asymm _ _ (lexLt_dig4_of_lt b a h' ha)] at h
      exact absurd h (by decide)
  · intro h
    exact lexLt_dig4_of_lt a b h hb

theorem mkInvoice_assoc (d : List Char) (n : Nat) :
    mkInvoice d n = ("INV".data ++ d) ++ '-' :: pad4 n := by
  simp [mkInvoice, List.append_assoc]

theorem lexLt_mkInvoice_iff (d : List Char) (a b : Nat)
    (ha : a < 10000) (hb : b < 10000) :
    lexLt (mkInvoice d a) (mkInvoice d b) = true ↔ a < b := by
  rw [mkInvoice_assoc, mkInvoice_assoc,
      show ("INV".data ++ d) ++ '-' :: pad4 a =
        (("INV".data ++ d) ++ ['-']) ++ pad4 a by simp,
      show ("INV".data ++ d) ++ '-' :: pad4 b =
        (("INV".data ++ d) ++ ['-']) ++ pad4 b by simp,
      lexLt_append_left, pad4_eq_dig4 a ha, pad4_eq_dig4 b hb]
  exact lexLt_dig4_iff a b ha hb

/-! ## Lemmas: the DESC-first query and the dash parse -/

theorem maxNat_le (l : List Nat) (c : Nat) (h : ∀ n ∈ l, n ≤ c) :
    maxNat l ≤ c := by
  induction l with
  | nil => exact Nat.zero_le c
  | cons n rest ih =>
    exact max_le (h n (List.mem_cons_self n rest))
      (ih (fun m hm => h m (List.mem_cons_of_mem _ hm)))

theorem maxNat_cons (n : Nat) (l : List Nat) :
    maxNat (n :: l) = max n (maxNat l) := rfl

/-- On a day's invoices — all of shape `mkInvoice d k` with `k < 10000` —
the DESC-first query returns the invoice with the greatest sequence. -/
theorem maxLex_map_mkInvoice (d : List Char) (seqs : List Nat)
    (hb : ∀ n ∈ seqs, n < 10000) (hne : seqs ≠ []) :
    maxLex (seqs.map (mkInvoice d)) = some (mkInvoice d (maxNat seqs)) := by
  induction seqs with
  | nil => exact absurd rfl hne
  | cons n rest ih =>
    have hn : n < 10000 := hb n (List.mem_cons_self n rest)
    rcases eq_or_ne rest [] with rfl | hrest
    · simp [maxLex, maxNat]
    · have hmax := ih (fun m hm => hb m (List.mem_cons_of_mem _ hm)) hrest
      have hM : maxNat rest < 10000 := by
        have := maxNat_le rest 9999
          (fun m hm => by have := hb m (List.mem_cons_of_mem _ hm); omega)
        omega
      simp only [List.map_cons, maxLex, hmax]
      by_cases hlt : n < maxNat rest
      · rw [if_pos ((lexLt_mkInvoice_iff d n (maxNat rest) hn hM).2 hlt)]
        rw [maxNat_cons, Nat.max_eq_right (Nat.le_of_lt hlt)]
      · rw [if_neg (by
          rw [lexLt_mkInvoice_iff d n (maxNat rest) hn hM]
          exact hlt)]
        rw [maxNat_cons, Nat.max_eq_left (Nat.le_of_not_lt hlt)]

theorem takeWhile_all_append (p : Char → Bool) (as : List Char) (b : Char)
    (bs : List Char) (hall : ∀ a ∈ as, p a = true) (hb : p b = false) :
    (as ++ b :: bs).takeWhile p = as := by
  induction as with
  | nil => simp [List.takeWhile_cons, hb]
  | cons a as ih =>
    have ha : p a = true := hall a (List.mem_cons_self a as)
    simp only [List.cons_append, List.takeWhile_cons, ha, if_true]
    rw [ih (fun x hx => hall x (List.mem_cons_of_mem _ hx))]

theorem afterLastDash_append (xs ys : List Char) (h : ∀ c ∈ ys, c ≠ '-') :
    afterLastDash (xs ++ '-' :: ys) = ys := by
  unfold afterLastDash
  rw [List.reverse_append, List.reverse_cons, List.append_assoc,
      show ['-'] ++ xs.reverse = '-' :: xs.reverse from rfl,
      takeWhile_all_append _ ys.reverse '-' xs.reverse
        (fun a ha => by
          have := h a (List.mem_reverse.mp ha)
          simp [this])
        (by simp),
      List.reverse_reverse]

theorem dig4_no_dash (n : Nat) (h : n < 10000) : ∀ c ∈ dig4 n, c ≠ '-' := by
  intro c hc
  simp only [dig4, List.mem_cons, List.not_mem_nil, or_false] at hc
  rcases hc with rfl | rfl | rfl | rfl
  · exact digitChar_ne_dash _ (by omega)
  · exact digitChar_ne_dash _ (by omega)
  · exact digitChar_ne_dash _ (by omega)
  · exact digitChar_ne_dash _ (by omega)

theorem generate_invoice_number_of_none (dateStr : List Char)
    (invoices : List (List Char))
    (h : maxLex (invoices.filter
      (fun inv => likePfx ("INV".data ++ dateStr) inv)) = none) :
    generate_invoice_number dateStr invoices =
      ("INV".data ++ dateStr) ++ '-' :: pad4 1 := by
  simp only [generate_invoice_number]
  rw [h]

theorem generate_invoice_number_of_some (dateStr : List Char)
    (invoices : List (List Char)) (last : List Char)
    (h : maxLex (invoices.filter
      (fun inv => likePfx ("INV".data ++ dateStr) inv)) = some last) :
    generate_invoice_number dateStr invoices =
      ("INV".data ++ dateStr) ++
        '-' :: pad4 (charsToNat (afterLastDash last) + 1) := by
  simp only [generate_invoice_number]
  rw [h]

/-! ## Claim C5: invoice numbering -/

/-- Claim C5: generate_invoice_number emits `INV{date}-{NNNN}` with NNNN a
four-digit zero-padded sequence: over a store whose invoices matching the
day's prefix are exactly the well-formed day invoices with sequence
numbers `seqs` (each in 1..9998), the generated number carries sequence
`max seqs + 1`, or `1` when no invoice of the day exists — so two
sequential calls on a fresh day produce `-0001` then `-0002`, and a call
on a new day restarts at `-0001` under the new date prefix (concrete runs
in the witness). -/
theorem C5_next_invoice_number (dateStr : List Char)
    (invoices : List (List Char)) (seqs : List Nat)
    (hseqs : ∀ n ∈ seqs, 1 ≤ n ∧ n ≤ 9998)
    (hfilter : invoices.filter
        (fun inv => likePfx ("INV".data ++ dateStr) inv) =
      seqs.map (mkInvoice dateStr)) :
    generate_invoice_number dateStr invoices =
      mkInvoice dateStr (if seqs = [] then 1 else maxNat seqs + 1) ∧
    (pad4 (if seqs = [] then 1 else maxNat seqs + 1)).length = 4 := by
  have hlt : ∀ n ∈ seqs, n < 10000 := fun n hn => by
    have := hseqs n hn
    omega
  have hM : maxNat seqs ≤ 9998 :=
    maxNat_le seqs 9998 (fun n hn => (hseqs n hn).2)
  rcases eq_or_ne seqs [] with rfl | hne
  · rw [if_pos rfl]
    constructor
    · rw [generate_invoice_number_of_none dateStr invoices
        (by rw [hfilter]; rfl), mkInvoice_assoc]
    · rw [pad4_eq_dig4 1 (by omega)]
      exact dig4_length 1
  · rw [if_neg hne]
    constructor
    · rw [generate_invoice_number_of_some dateStr invoices
        (mkInvoice dateStr (maxNat seqs))
        (by rw [hfilter]; exact maxLex_map_mkInvoice dateStr seqs hlt hne)]
      rw [mkInvoice_assoc dateStr (maxNat seqs),
          pad4_eq_dig4 (maxNat seqs) (by omega),
          afterLastDash_append _ _ (dig4_no_dash _ (by omega)),
          charsToNat_dig4 _ (by omega), mkInvoice_assoc]
    · rw [pad4_eq_dig4 _ (by omega)]
      exact dig4_length _

/-- Witness for claim C5: three concrete runs — a fresh day yields
`INV20250101-0001`; with that invoice stored the same day yields
`INV20250101-0002`; a new day with the old day's invoices stored restarts
at `INV20250102-0001`. -/
theorem C5_next_invoice_number_witness :
    (generate_invoice_number "20250101".data [] =
        mkInvoice "20250101".data
          (if ([] : List Nat) = [] then 1 else maxNat [] + 1) ∧
      (pad4 (if ([] : List Nat) = [] then 1 else maxNat [] + 1)).length =
        4) ∧
    (generate_invoice_number "20250101".data ["INV20250101-0001".data] =
        mkInvoice "20250101".data
          (if ([1] : List Nat) = [] then 1 else maxNat [1] + 1) ∧
      (pad4 (if ([1] : List Nat) = [] then 1 else maxNat [1] + 1)).length =
        4) ∧
    (generate_invoice_number "20250102".data
        ["INV20250101-0001".data, "INV20250101-0002".data] =
        mkInvoice "20250102".data
          (if ([] : List Nat) = [] then 1 else maxNat [] + 1) ∧
      (pad4 (if ([] : List Nat) = [] then 1 else maxNat [] + 1)).length =
        4) :=
  ⟨C5_next_invoice_number "20250101".data [] [] (by decide) (by decide),
   C5_next_invoice_number "20250101".data ["INV20250101-0001".data] [1]
     (by decide) (by decide),
   C5_next_invoice_number "20250102".data
     ["INV20250101-0001".data, "INV20250101-0002".data] [] (by decide)
     (by decide)⟩

end Revibe
